import Mathlib

/- Verification of the Vulkan renderer core of rust_gamephysics: a shallow
embedding of the device-selection, swapchain, pipeline, mesh-upload and
frame-protocol logic from src/renderer, with theorems checking the
specification's claims against it. Driver (FFI) calls are modelled as
explicit outcome parameters; Rust panics are a distinguished result
constructor; u32/usize values are modelled as Nat. -/

namespace VkRenderer

/-- Outcome of running a fallible piece of renderer code: a Rust panic, a
propagated VkResult error code, or success. -/
inductive RunResult (α : Type) where
  | panicked
  | vkError (e : Nat)
  | ok (a : α)

/- ----------------------------------------------------------------- -/
/- Queue-family resolution: Device::queue_families (device.rs 256-293) -/
/- ----------------------------------------------------------------- -/

/-- Capability data of one queue family as consulted by Device::queue_families:
the GRAPHICS and TRANSFER bits of queue_flags, and the outcome of
surface.device_surface_support for this family (none models a VkResult error,
which the source skips over via if-let-Ok). -/
structure FamilyProps where
  graphics : Bool
  transfer : Bool
  present : Option Bool
deriving DecidableEq

/-- Resolved queue-family indices, struct QueueFamilies in device.rs. -/
structure QueueFamilies where
  graphics : Nat
  compute : Nat
  transfer : Nat
  present : Nat
deriving DecidableEq

/-- The four mutable Option locals of the loop in Device::queue_families. -/
structure QFState where
  graphics : Option Nat
  compute : Option Nat
  transfer : Option Nat
  present : Option Nat
deriving DecidableEq

/-- Graphics branch of the loop body of Device::queue_families (device.rs
268-270): take the first graphics-capable family. -/
def qfGraphics (s : QFState) (family : Nat) (p : FamilyProps) : Option Nat :=
  if s.graphics = none ∧ p.graphics = true then some family else s.graphics

/-- Compute branch (device.rs 271-275). The Rust loop mutates the same four
locals in sequence, so this branch reads the already-updated graphics value. -/
def qfCompute (s : QFState) (family : Nat) (p : FamilyProps) : Option Nat :=
  if p.graphics = true ∧ (qfGraphics s family p = s.compute ∨ s.compute = none) then some family
  else s.compute

/-- Transfer branch (device.rs 276-280), reading the updated graphics and
compute values. -/
def qfTransfer (s : QFState) (family : Nat) (p : FamilyProps) : Option Nat :=
  if p.transfer = true ∧
      (s.transfer = qfGraphics s family p ∨ s.transfer = qfCompute s family p ∨
        s.transfer = none) then
    some family
  else s.transfer

/-- Present branch (device.rs 281-285): overwritten by every family whose
surface-support query is Ok(true). -/
def qfPresent (s : QFState) (family : Nat) (p : FamilyProps) : Option Nat :=
  if p.present = some true then some family else s.present

/-- One iteration of the loop body of Device::queue_families (device.rs
267-286), assembled from the four sequential branches. -/
def qfStep (s : QFState) (family : Nat) (p : FamilyProps) : QFState :=
  ⟨qfGraphics s family p, qfCompute s family p, qfTransfer s family p, qfPresent s family p⟩

/-- The enumerated loop of Device::queue_families, with k the index of the
first family of the remaining list. -/
def qfLoop (k : Nat) (fams : List FamilyProps) (s : QFState) : QFState :=
  match fams with
  | [] => s
  | p :: rest => qfLoop (k + 1) rest (qfStep s k p)

/-- Final loop state of Device::queue_families over the full family list. -/
def qfRun (fams : List FamilyProps) : QFState :=
  qfLoop 0 fams ⟨none, none, none, none⟩

/-- Device::queue_families: run the resolution loop, then require all four
indices to be resolved (the four trailing question-mark operators). -/
def queue_families (fams : List FamilyProps) : Option QueueFamilies :=
  match (qfRun fams).graphics, (qfRun fams).compute,
        (qfRun fams).transfer, (qfRun fams).present with
  | some g, some c, some t, some pr => some ⟨g, c, t, pr⟩
  | _, _, _, _ => none

/- ----------------------------------------------------------------- -/
/- Present-mode resolution inside Device::is_suitable (device.rs 194-199) -/
/- ----------------------------------------------------------------- -/

/-- Vulkan presentation modes relevant to the selection logic. -/
inductive PresentModeKHR where
  | IMMEDIATE
  | MAILBOX
  | FIFO
  | FIFO_RELAXED
deriving DecidableEq

/-- Present-mode resolution from Device::is_suitable: find MAILBOX among the
advertised modes and fall back to FIFO when absent. -/
def choose_present_mode (modes : List PresentModeKHR) : PresentModeKHR :=
  (modes.find? (fun mode => mode == PresentModeKHR.MAILBOX)).getD PresentModeKHR.FIFO

/- ----------------------------------------------------------------- -/
/- Swapchain image count: Device::create_swapchain (swapchain.rs 100-119) -/
/- ----------------------------------------------------------------- -/

/-- A two-dimensional extent of vk::Extent2D. -/
structure Extent2D where
  width : Nat
  height : Nat
deriving DecidableEq

/-- The fields of vk::SurfaceCapabilitiesKHR read by Device::create_swapchain. -/
structure SurfaceCapabilities where
  current_extent : Extent2D
  min_image_extent : Extent2D
  max_image_extent : Extent2D
  min_image_count : Nat
  max_image_count : Nat
deriving DecidableEq

/-- The requested swapchain image count, the min_image_count local of
Device::create_swapchain (swapchain.rs 112-119): uncapped min+1 when no
maximum is advertised, otherwise min+1 clamped with u32::min to the maximum. -/
def swapchain_image_count (c : SurfaceCapabilities) : Nat :=
  if c.max_image_count = 0 then c.min_image_count + 1
  else min (c.min_image_count + 1) c.max_image_count

/- ----------------------------------------------------------------- -/
/- Mesh data concatenation: Device::load_mesh_data (buffer.rs 29-127)  -/
/- ----------------------------------------------------------------- -/

/-- Two-component f32 vector of the math library. -/
structure Vector2 where
  x : Float
  y : Float

/-- Three-component f32 vector of the math library. -/
structure Vector3 where
  x : Float
  y : Float
  z : Float

/-- Four-component f32 vector of the math library. -/
structure Vector4 where
  x : Float
  y : Float
  z : Float
  w : Float

/-- Row of four Vector4 columns, struct Matrix4 of math/types/mat.rs. -/
structure Matrix4 where
  i : Vector4
  j : Vector4
  k : Vector4
  l : Vector4

/-- Packed vertex record of renderer/mesh.rs. -/
structure Vertex where
  pos : Vector3
  norm : Vector3
  tang : Vector4
  color : Vector4
  tex : Vector2

/-- Mesh payload of renderer/mesh.rs: vertex records plus u32 indices. -/
structure Mesh where
  vertices : List Vertex
  indices : List Nat

/-- Per-mesh entry of the offset table, struct MeshOffset of buffer.rs. -/
structure MeshOffset where
  index_offset : Nat
  vertex_offset : Nat
  index_count : Nat
deriving DecidableEq

/-- Byte size of an f32. -/
def size_of_f32 : Nat := 4

/-- Byte size of struct Vertex: five tightly packed fields of 3+3+4+4+2 f32. -/
def size_of_Vertex : Nat :=
  3 * size_of_f32 + 3 * size_of_f32 + 4 * size_of_f32 + 4 * size_of_f32 + 2 * size_of_f32

/-- Byte size of Vector4: four f32 components. -/
def size_of_Vector4 : Nat := 4 * size_of_f32

/-- Byte size of Matrix4: four Vector4 rows. -/
def size_of_Matrix4 : Nat := 4 * size_of_Vector4

/-- One iteration of the concatenation loop of Device::load_mesh_data
(buffer.rs 39-47): push the MeshOffset recording the current accumulated
lengths, then extend the vertex and index accumulators with the mesh data. -/
def meshConcatStep (acc : List MeshOffset × List Vertex × List Nat) (mesh : Mesh) :
    List MeshOffset × List Vertex × List Nat :=
  (acc.1 ++ [⟨acc.2.2.length, acc.2.1.length, mesh.indices.length⟩],
   acc.2.1 ++ mesh.vertices, acc.2.2 ++ mesh.indices)

/-- The full concatenation loop of Device::load_mesh_data: offset table,
concatenated vertices and concatenated indices, all in registration order. -/
def load_mesh_offsets (meshes : List Mesh) : List MeshOffset × List Vertex × List Nat :=
  meshes.foldl meshConcatStep ([], [], [])

/-- The CPU-visible part of struct MeshData of buffer.rs (buffer handles are
opaque Nat): the geometry buffer regions start at byte 0 for vertices and at
the vertex byte size for indices, and carry the offset table. -/
structure MeshData where
  memory : Nat
  buffer : Nat
  index_offset : Nat
  vertex_offset : Nat
  mesh_offsets : List MeshOffset

/-- Result of Device::load_mesh_data as far as CPU state is concerned
(buffer.rs 120-126): vertex region at offset 0, index region after all
vertex bytes, offsets in registration order. -/
def load_mesh_data (meshes : List Mesh) (memory buffer : Nat) : MeshData :=
  let r := load_mesh_offsets meshes
  ⟨memory, buffer, r.2.1.length * size_of_Vertex, 0, r.1⟩

/- ----------------------------------------------------------------- -/
/- Swapchain frame ring: swapchain.rs                                  -/
/- ----------------------------------------------------------------- -/

/-- Handles of the shared depth buffer, struct DepthBuffer of swapchain.rs. -/
structure DepthBuffer where
  memory : Nat
  image : Nat
  view : Nat
deriving DecidableEq

/-- CPU state of struct Swapchain of swapchain.rs; Vulkan handles are opaque
Nat and the stateless loader function table is omitted. The frame field is the
frame-slot counter. -/
structure Swapchain where
  extent : Extent2D
  images : List Nat
  views : List Nat
  depth_buffer : DepthBuffer
  framebuffers : List Nat
  image_available : List Nat
  image_draw_ready : List Nat
  image_draw_finished : List Nat
  pool : Nat
  command_buffers : List Nat
  handle : Nat
  frame : Nat
deriving DecidableEq

/-- Per-frame handle bundle, struct Frame of swapchain.rs. -/
structure Frame where
  command : Nat
  framebuffer : Nat
  available : Nat
  draw_ready : Nat
  draw_finished : Nat
  image_index : Nat
deriving DecidableEq

/-- Driver-call outcomes consumed by Swapchain::acquire_image: the
acquire_next_image result (image index and suboptimal flag), and the fence
wait, fence reset and command-buffer begin results. -/
structure AcquireEnv where
  acquire_next_image : Except Nat (Nat × Bool)
  wait_for_fences : Except Nat Unit
  reset_fences : Except Nat Unit
  begin_command_buffer : Except Nat Unit

/-- Swapchain::acquire_image (swapchain.rs 41-69): build the Frame from the
slot selected by the frame counter, acquire an image index from the driver,
fill in the per-image fence and framebuffer, then wait on and reset the fence
and begin recording. Vec indexing panics when out of bounds; no Swapchain
field is ever assigned, so the returned state is the input state. -/
def Swapchain.acquire_image (s : Swapchain) (env : AcquireEnv) :
    RunResult (Swapchain × Frame) :=
  match s.command_buffers.get? s.frame with
  | none => .panicked
  | some command =>
  match s.image_draw_ready.get? s.frame with
  | none => .panicked
  | some draw_ready =>
  match s.image_draw_finished.get? s.frame with
  | none => .panicked
  | some draw_finished =>
  match env.acquire_next_image with
  | .error e => .vkError e
  | .ok (image_index, _suboptimal) =>
  match s.image_available.get? image_index with
  | none => .panicked
  | some available =>
  match s.framebuffers.get? image_index with
  | none => .panicked
  | some framebuffer =>
  match env.wait_for_fences with
  | .error e => .vkError e
  | .ok _ =>
  match env.reset_fences with
  | .error e => .vkError e
  | .ok _ =>
  match env.begin_command_buffer with
  | .error e => .vkError e
  | .ok _ =>
    .ok (s, ⟨command, framebuffer, available, draw_ready, draw_finished, image_index⟩)

/-- Driver-call outcome consumed by Swapchain::present_image: the
queue_present result, Ok carrying the suboptimal flag. -/
structure PresentEnv where
  queue_present : Except Nat Bool

/-- Swapchain::present_image (swapchain.rs 71-87): present the frame's image
index; on success advance the frame-slot counter by one modulo the image
count and return the suboptimal flag. On a driver error the question-mark
operator returns before the counter update. -/
def Swapchain.present_image (s : Swapchain) (env : PresentEnv) :
    RunResult (Swapchain × Bool) :=
  match env.queue_present with
  | .error e => .vkError e
  | .ok suboptimal => .ok ({ s with frame := (s.frame + 1) % s.images.length }, suboptimal)

/- ----------------------------------------------------------------- -/
/- Pipeline layout and push constants: layout.rs                       -/
/- ----------------------------------------------------------------- -/

/-- Shader stages used by the pipeline. -/
inductive ShaderStage where
  | VERTEX
  | FRAGMENT
deriving DecidableEq

/-- Push-constant offset of the camera matrix, layout.rs line 7. -/
def CAMERA_PUSH_OFFSET : Nat := 0 * size_of_Matrix4

/-- Push-constant offset of the per-object world matrix, layout.rs line 8. -/
def WORLD_PUSH_OFFSET : Nat := 1 * size_of_Matrix4

/-- One entry of vk::PushConstantRange as filled in by Device::create_layout. -/
structure PushConstantRange where
  stage_flags : ShaderStage
  size : Nat
  offset : Nat
deriving DecidableEq

/-- The push-constant ranges declared by Device::create_layout (layout.rs
59-63): a single range of two Matrix4, offset 0, vertex stage only. -/
def create_layout_push_ranges : List PushConstantRange :=
  [⟨ShaderStage.VERTEX, 2 * size_of_Matrix4, 0⟩]

/-- CPU handles of struct Layout of layout.rs (the vertex binding and
attribute descriptions are static data not consulted by the frame protocol). -/
structure Layout where
  pipeline_layout : Nat
deriving DecidableEq

/- ----------------------------------------------------------------- -/
/- Frame protocol: Device and Backend (device.rs 365-449, vulkan.rs)   -/
/- ----------------------------------------------------------------- -/

/-- Commands recorded into a command buffer or submitted to a queue by the
frame protocol; push_constants records the byte span written and the matrix
it was produced from by bytemuck::bytes_of. -/
inductive DeviceOp where
  | begin_render_pass (render_pass framebuffer : Nat)
  | bind_pipeline (pipeline : Nat)
  | push_constants (stage : ShaderStage) (offset : Nat) (byte_count : Nat) (data : Matrix4)
  | bind_vertex_buffer (buffer offset : Nat)
  | bind_index_buffer (buffer offset : Nat)
  | draw_indexed (index_count instance_count first_index vertex_offset first_instance : Nat)
  | end_render_pass
  | queue_submit (queue fence : Nat)
  | destroy_shader_module (module : Nat)

/-- Device queue handles, struct Queues of device.rs. -/
structure Queues where
  graphics : Nat
  compute : Nat
  transfer : Nat
  present : Nat
deriving DecidableEq

/-- Per-purpose command pools, struct CommandPools of device.rs. -/
structure CommandPools where
  graphics : Nat
  compute : Nat
  transfer : Nat
deriving DecidableEq

/-- CPU state of struct Device of device.rs relevant to the frame protocol
(the ash device handle and the immutable PhysicalDeviceConfig snapshot are
omitted; Vulkan handles are opaque Nat). -/
structure Device where
  queues : Queues
  command_pools : CommandPools
  render_pass : Nat
  swapchain : Swapchain
  layout : Layout
  pipeline : Nat
  mesh_data : MeshData

/-- Device::begin_frame (device.rs 365-409): acquire a frame from the
swapchain, then record render-pass begin, pipeline bind, the camera matrix
push at CAMERA_PUSH_OFFSET and the geometry buffer binds. No Device field is
assigned. -/
def Device.begin_frame (d : Device) (camera_matrix : Matrix4) (env : AcquireEnv) :
    RunResult (Device × Frame × List DeviceOp) :=
  match d.swapchain.acquire_image env with
  | .panicked => .panicked
  | .vkError e => .vkError e
  | .ok (sc, frame) =>
    .ok ({ d with swapchain := sc }, frame,
      [DeviceOp.begin_render_pass d.render_pass frame.framebuffer,
       DeviceOp.bind_pipeline d.pipeline,
       DeviceOp.push_constants ShaderStage.VERTEX CAMERA_PUSH_OFFSET size_of_Matrix4
         camera_matrix,
       DeviceOp.bind_vertex_buffer d.mesh_data.buffer d.mesh_data.vertex_offset,
       DeviceOp.bind_index_buffer d.mesh_data.buffer d.mesh_data.index_offset])

/-- Device::draw (device.rs 411-430): index the MeshOffset table with the
handle's public index (a Rust Vec index, which panics when out of bounds),
push the world matrix at WORLD_PUSH_OFFSET and record one indexed draw. -/
def Device.draw (d : Device) (_frame : Frame) (mesh_idx : Nat) (world : Matrix4) :
    RunResult (Device × List DeviceOp) :=
  match d.mesh_data.mesh_offsets.get? mesh_idx with
  | none => .panicked
  | some offsets =>
    .ok (d,
      [DeviceOp.push_constants ShaderStage.VERTEX WORLD_PUSH_OFFSET size_of_Matrix4 world,
       DeviceOp.draw_indexed offsets.index_count 1 offsets.index_offset offsets.vertex_offset 0])

/-- Driver-call outcomes consumed by Device::end_frame: end_command_buffer,
queue_submit and queue_present results. -/
structure SubmitEnv where
  end_command_buffer : Except Nat Unit
  queue_submit : Except Nat Unit
  queue_present : Except Nat Bool

/-- Device::end_frame (device.rs 432-449): end the render pass and command
buffer, submit to the graphics queue gated by the frame's semaphores and
fence, then present through the swapchain (which advances the slot counter). -/
def Device.end_frame (d : Device) (frame : Frame) (env : SubmitEnv) :
    RunResult (Device × List DeviceOp) :=
  match env.end_command_buffer with
  | .error e => .vkError e
  | .ok _ =>
    match env.queue_submit with
    | .error e => .vkError e
    | .ok _ =>
      match d.swapchain.present_image ⟨env.queue_present⟩ with
      | .panicked => .panicked
      | .vkError e => .vkError e
      | .ok (sc, _suboptimal) =>
        .ok ({ d with swapchain := sc },
          [DeviceOp.end_render_pass,
           DeviceOp.queue_submit d.queues.graphics frame.available])

/-- CPU state of struct Backend of vulkan.rs: the optional open frame and the
device (surface, messenger and instance are stateless handles, omitted). -/
structure Backend where
  current_frame : Option Frame
  device : Device

/-- Renderer::begin_frame for Backend (vulkan.rs 117-122): a no-op returning
Ok when a frame is already open, otherwise delegate to Device::begin_frame
and store the produced frame. -/
def Backend.begin_frame (b : Backend) (camera_matrix : Matrix4) (env : AcquireEnv) :
    RunResult (Backend × List DeviceOp) :=
  match b.current_frame with
  | some _ => .ok (b, [])
  | none =>
    match b.device.begin_frame camera_matrix env with
    | .panicked => .panicked
    | .vkError e => .vkError e
    | .ok (d, frame, ops) => .ok (⟨some frame, d⟩, ops)

/-- Renderer::draw for Backend (vulkan.rs 123-128): silently ignored when no
frame is open, otherwise delegate to Device::draw. -/
def Backend.draw (b : Backend) (mesh_idx : Nat) (world : Matrix4) :
    RunResult (Backend × List DeviceOp) :=
  match b.current_frame with
  | none => .ok (b, [])
  | some frame =>
    match b.device.draw frame mesh_idx world with
    | .panicked => .panicked
    | .vkError e => .vkError e
    | .ok (d, ops) => .ok ({ b with device := d }, ops)

/-- Renderer::end_frame for Backend (vulkan.rs 129-134): a no-op returning Ok
when no frame is open, otherwise take the frame out and delegate to
Device::end_frame. -/
def Backend.end_frame (b : Backend) (env : SubmitEnv) :
    RunResult (Backend × List DeviceOp) :=
  match b.current_frame with
  | none => .ok (b, [])
  | some frame =>
    match b.device.end_frame frame env with
    | .panicked => .panicked
    | .vkError e => .vkError e
    | .ok (d, ops) => .ok (⟨none, d⟩, ops)

/- ----------------------------------------------------------------- -/
/- Pipeline fixed-function state and creation: pipeline.rs             -/
/- ----------------------------------------------------------------- -/

/-- Blend factors relevant to the configured attachment state. -/
inductive BlendFactor where
  | ZERO
  | ONE
  | SRC_ALPHA
  | ONE_MINUS_SRC_ALPHA
deriving DecidableEq

/-- Blend operations. -/
inductive BlendOp where
  | ADD
  | SUBTRACT
deriving DecidableEq

/-- Depth comparison operators. -/
inductive CompareOp where
  | LESS
  | LESS_OR_EQUAL
  | ALWAYS
deriving DecidableEq

/-- Primitive assembly topologies. -/
inductive PrimitiveTopology where
  | POINT_LIST
  | TRIANGLE_LIST
  | TRIANGLE_STRIP
deriving DecidableEq

/-- Polygon rasterization modes. -/
inductive PolygonMode where
  | FILL
  | LINE
deriving DecidableEq

/-- Winding order of front faces. -/
inductive FrontFace where
  | COUNTER_CLOCKWISE
  | CLOCKWISE
deriving DecidableEq

/-- Face culling modes. -/
inductive CullMode where
  | NONE
  | FRONT
  | BACK
deriving DecidableEq

/-- vk::PipelineColorBlendAttachmentState as filled in by
Device::create_pipeline (pipeline.rs 27-36). -/
structure ColorBlendAttachmentState where
  blend_enable : Bool
  color_blend_op : BlendOp
  src_color_blend_factor : BlendFactor
  dst_color_blend_factor : BlendFactor
  alpha_blend_op : BlendOp
  src_alpha_blend_factor : BlendFactor
  dst_alpha_blend_factor : BlendFactor
deriving DecidableEq

/-- vk::PipelineDepthStencilStateCreateInfo fields set in pipeline.rs 40-43. -/
structure DepthStencilState where
  depth_write_enable : Bool
  depth_test_enable : Bool
  depth_compare_op : CompareOp
deriving DecidableEq

/-- vk::PipelineRasterizationStateCreateInfo fields set in pipeline.rs 54-59
(line_width is the f32 1.0, modelled as Nat). -/
structure RasterizationState where
  rasterizer_discard_enable : Bool
  polygon_mode : PolygonMode
  line_width : Nat
  front_face : FrontFace
  cull_mode : CullMode
deriving DecidableEq

/-- vk::Viewport fields set in pipeline.rs 71-78. The f32 entries are exact
casts of u32 extents (or their negation) and of 0.0 and 1.0, modelled in Int. -/
structure Viewport where
  width : Int
  height : Int
  x : Int
  y : Int
  min_depth : Int
  max_depth : Int
deriving DecidableEq

/-- The fixed-function state assembled by Device::create_pipeline
(pipeline.rs 24-83). -/
structure PipelineFixedState where
  color_blend : ColorBlendAttachmentState
  depth_stencil : DepthStencilState
  topology : PrimitiveTopology
  rasterization_samples : Nat
  rasterization : RasterizationState
  viewport : Viewport
  scissor_extent : Extent2D
deriving DecidableEq

/-- Fixed-function state of the one pipeline built by Device::create_pipeline,
as a function of the swapchain extent: alpha-over blend factors with blending
disabled, depth test and write on with LESS_OR_EQUAL, triangle list, one
sample, filled back-face-culled counter-clockwise rasterization, and a
viewport with negated height and y at the bottom of the image. -/
def create_pipeline_state (extent : Extent2D) : PipelineFixedState :=
  { color_blend :=
      { blend_enable := false
        color_blend_op := BlendOp.ADD
        src_color_blend_factor := BlendFactor.SRC_ALPHA
        dst_color_blend_factor := BlendFactor.ONE_MINUS_SRC_ALPHA
        alpha_blend_op := BlendOp.ADD
        src_alpha_blend_factor := BlendFactor.ONE
        dst_alpha_blend_factor := BlendFactor.ZERO }
    depth_stencil :=
      { depth_write_enable := true
        depth_test_enable := true
        depth_compare_op := CompareOp.LESS_OR_EQUAL }
    topology := PrimitiveTopology.TRIANGLE_LIST
    rasterization_samples := 1
    rasterization :=
      { rasterizer_discard_enable := false
        polygon_mode := PolygonMode.FILL
        line_width := 1
        front_face := FrontFace.COUNTER_CLOCKWISE
        cull_mode := CullMode.BACK }
    viewport :=
      { width := (extent.width : Int)
        height := -(extent.height : Int)
        x := 0
        y := (extent.height : Int)
        min_depth := 0
        max_depth := 1 }
    scissor_extent := extent }

/-- A shader stage descriptor as returned by Device::load_shader_module. -/
structure ShaderStageInfo where
  module : Nat
  stage : ShaderStage
deriving DecidableEq

/-- Environment of Device::create_pipeline: the contents of the two shader
binaries at their fixed paths (none models a failing File::open), and the
driver outcomes of create_shader_module (per byte blob) and of
create_graphics_pipelines. -/
structure PipelineEnv where
  vert_file : Option (List Nat)
  frag_file : Option (List Nat)
  create_shader_module : List Nat → Except Nat Nat
  create_graphics_pipelines : Except Nat Nat

/-- Device::load_shader_module (pipeline.rs 104-126): the File::open result
is unwrapped, so a missing file is a panic; a driver failure of
create_shader_module propagates as an error. -/
def load_shader_module (create_module : List Nat → Except Nat Nat) (stage : ShaderStage)
    (file : Option (List Nat)) : RunResult ShaderStageInfo :=
  match file with
  | none => .panicked
  | some bytes =>
    match create_module bytes with
    | .error e => .vkError e
    | .ok module => .ok ⟨module, stage⟩

/-- Device::load_shaders (pipeline.rs 128-140): vertex stage first, then
fragment stage, each propagating its failure. -/
def load_shaders (env : PipelineEnv) : RunResult (List ShaderStageInfo) :=
  match load_shader_module env.create_shader_module ShaderStage.VERTEX env.vert_file with
  | .panicked => .panicked
  | .vkError e => .vkError e
  | .ok vertex =>
    match load_shader_module env.create_shader_module ShaderStage.FRAGMENT env.frag_file with
    | .panicked => .panicked
    | .vkError e => .vkError e
    | .ok fragment => .ok [vertex, fragment]

/-- Device::create_pipeline (pipeline.rs 12-98), success/failure structure:
load both shader stages, build the pipeline, and only on success destroy both
shader modules (the destruction loop sits after the early returns). The ops
list records the destroyed modules. -/
def create_pipeline (env : PipelineEnv) : RunResult (Nat × List DeviceOp) :=
  match load_shaders env with
  | .panicked => .panicked
  | .vkError e => .vkError e
  | .ok shaders =>
    match env.create_graphics_pipelines with
    | .error e => .vkError e
    | .ok pipeline =>
      .ok (pipeline, shaders.map fun s => DeviceOp.destroy_shader_module s.module)

/- ----------------------------------------------------------------- -/
/- Theorems                                                            -/
/- ----------------------------------------------------------------- -/

/-- Surface capabilities advertising min_image_count 2 and maximum 8. -/
def capsMinTwoMaxEight : SurfaceCapabilities :=
  ⟨⟨800, 600⟩, ⟨1, 1⟩, ⟨4096, 4096⟩, 2, 8⟩

/-- C2, counterexample: with min_image_count 2 and advertised maximum 8 the
code requests min(2+1, 8) = 3 images, not max(2+1, 8) = 8 as the claim
states. -/
theorem c2_image_count_counterexample :
    swapchain_image_count capsMinTwoMaxEight = 3 ∧
    ¬ swapchain_image_count capsMinTwoMaxEight =
        max (capsMinTwoMaxEight.min_image_count + 1) capsMinTwoMaxEight.max_image_count := by
  decide

/-- C2, amended: when a maximum is advertised the requested image count is
min_image_count+1 clamped from above by the maximum (it equals
min_image_count+1 whenever that fits under the maximum and never exceeds the
maximum), and it is the uncapped min_image_count+1 when no maximum is
advertised. -/
theorem c2_image_count_amended (c : SurfaceCapabilities) :
    (c.max_image_count = 0 → swapchain_image_count c = c.min_image_count + 1) ∧
    (c.max_image_count ≠ 0 →
      swapchain_image_count c = min (c.min_image_count + 1) c.max_image_count ∧
      swapchain_image_count c ≤ c.max_image_count ∧
      (c.min_image_count + 1 ≤ c.max_image_count →
        swapchain_image_count c = c.min_image_count + 1)) := by
  unfold swapchain_image_count
  refine ⟨fun h => by simp [h], fun h => ?_⟩
  rw [if_neg h]
  exact ⟨rfl, Nat.min_le_right _ _, fun hle => Nat.min_eq_left hle⟩

/-- C2 witness: the amended characterization at concrete capabilities. -/
theorem c2_image_count_amended_witness :
    swapchain_image_count capsMinTwoMaxEight =
      min (capsMinTwoMaxEight.min_image_count + 1) capsMinTwoMaxEight.max_image_count :=
  ((c2_image_count_amended capsMinTwoMaxEight).2 (by decide)).1

/-- C7: present-mode resolution chooses MAILBOX whenever the device
advertises it, otherwise FIFO; in particular a device advertising only FIFO
resolves (without failing, choose_present_mode being total) to FIFO. -/
theorem c7_present_mode_resolution (modes : List PresentModeKHR) :
    (PresentModeKHR.MAILBOX ∈ modes →
      choose_present_mode modes = PresentModeKHR.MAILBOX) ∧
    (PresentModeKHR.MAILBOX ∉ modes →
      choose_present_mode modes = PresentModeKHR.FIFO) ∧
    choose_present_mode [PresentModeKHR.FIFO] = PresentModeKHR.FIFO := by
  refine ⟨fun hmem => ?_, fun hnot => ?_, by decide⟩
  · unfold choose_present_mode
    have hfind := List.find?_eq_none (p := fun mode => mode == PresentModeKHR.MAILBOX)
      (l := modes)
    rcases hcase : modes.find? fun mode => mode == PresentModeKHR.MAILBOX with _ | found
    · exact absurd (hfind.mp hcase PresentModeKHR.MAILBOX hmem) (by simp)
    · have := List.find?_some hcase
      simp only [beq_iff_eq] at this
      simp [hcase, this]
  · unfold choose_present_mode
    rcases hcase : modes.find? fun mode => mode == PresentModeKHR.MAILBOX with _ | found
    · simp [hcase]
    · have hm := List.find?_some hcase
      have hin := List.mem_of_find?_eq_some hcase
      simp only [beq_iff_eq] at hm
      exact absurd (hm ▸ hin) hnot

/-- C7 witness: resolution at a device advertising MAILBOX after FIFO, and
at a device advertising only FIFO. -/
theorem c7_present_mode_resolution_witness :
    choose_present_mode [PresentModeKHR.FIFO, PresentModeKHR.MAILBOX] =
      PresentModeKHR.MAILBOX ∧
    choose_present_mode [PresentModeKHR.FIFO] = PresentModeKHR.FIFO :=
  ⟨(c7_present_mode_resolution [PresentModeKHR.FIFO, PresentModeKHR.MAILBOX]).1 (by decide),
   (c7_present_mode_resolution [PresentModeKHR.FIFO]).2.2⟩

/-- C5, counterexample: at the concrete extent 800x600 the compiled pipeline
state has blend_enable false on its color attachment, so the fixed-function
state does not enable alpha-blend-over blending as the claim states. -/
theorem c5_blend_counterexample :
    ¬ (create_pipeline_state ⟨800, 600⟩).color_blend.blend_enable = true := by
  decide

/-- C5, amended: the compiled fixed-function state configures the standard
alpha-blend-over blend factors but leaves blending disabled on the color
attachment, together with triangle-list topology, fill mode,
counter-clockwise front face, back-face culling, depth test and write enabled
with less-or-equal compare, single-sample, and a vertically-flipped viewport. -/
theorem c5_fixed_function_state_amended (extent : Extent2D) :
    (create_pipeline_state extent).topology = PrimitiveTopology.TRIANGLE_LIST ∧
    (create_pipeline_state extent).rasterization.polygon_mode = PolygonMode.FILL ∧
    (create_pipeline_state extent).rasterization.front_face =
      FrontFace.COUNTER_CLOCKWISE ∧
    (create_pipeline_state extent).rasterization.cull_mode = CullMode.BACK ∧
    (create_pipeline_state extent).depth_stencil.depth_test_enable = true ∧
    (create_pipeline_state extent).depth_stencil.depth_write_enable = true ∧
    (create_pipeline_state extent).depth_stencil.depth_compare_op =
      CompareOp.LESS_OR_EQUAL ∧
    (create_pipeline_state extent).rasterization_samples = 1 ∧
    (create_pipeline_state extent).color_blend.blend_enable = false ∧
    (create_pipeline_state extent).color_blend.src_color_blend_factor =
      BlendFactor.SRC_ALPHA ∧
    (create_pipeline_state extent).color_blend.dst_color_blend_factor =
      BlendFactor.ONE_MINUS_SRC_ALPHA ∧
    (create_pipeline_state extent).color_blend.color_blend_op = BlendOp.ADD ∧
    (create_pipeline_state extent).viewport.height = -(extent.height : Int) ∧
    (create_pipeline_state extent).viewport.y = (extent.height : Int) ∧
    (create_pipeline_state extent).viewport.width = (extent.width : Int) := by
  refine ⟨rfl, rfl, rfl, rfl, rfl, rfl, rfl, rfl, rfl, rfl, rfl, rfl, rfl, rfl, rfl⟩

/-- Pipeline environment in which the vertex shader binary is missing while
every driver call would succeed. -/
def envMissingVert : PipelineEnv :=
  ⟨none, some [3], fun _ => Except.ok 7, Except.ok 9⟩

/-- C6, counterexample: with the vertex shader binary missing, shader loading
fails, yet create_pipeline panics (the unwrapped File::open in
load_shader_module) instead of returning an error value as the claim states. -/
theorem c6_pipeline_error_counterexample :
    create_pipeline envMissingVert = RunResult.panicked := rfl

/-- C6, amended: a missing shader binary file makes create_pipeline panic
(the File::open result is unwrapped); a driver-level failure of shader-module
creation or of the pipeline build is returned as an error value; and when
creation succeeds both shader modules are destroyed immediately afterwards. -/
theorem c6_pipeline_error_amended (env : PipelineEnv) :
    (env.vert_file = none → create_pipeline env = RunResult.panicked) ∧
    (∀ bs m, env.vert_file = some bs → env.create_shader_module bs = Except.ok m →
      env.frag_file = none → create_pipeline env = RunResult.panicked) ∧
    (∀ bs e, env.vert_file = some bs → env.create_shader_module bs = Except.error e →
      create_pipeline env = RunResult.vkError e) ∧
    (∀ bs cs m e, env.vert_file = some bs → env.create_shader_module bs = Except.ok m →
      env.frag_file = some cs → env.create_shader_module cs = Except.error e →
      create_pipeline env = RunResult.vkError e) ∧
    (∀ bs cs mv mf e, env.vert_file = some bs → env.create_shader_module bs = Except.ok mv →
      env.frag_file = some cs → env.create_shader_module cs = Except.ok mf →
      env.create_graphics_pipelines = Except.error e →
      create_pipeline env = RunResult.vkError e) ∧
    (∀ bs cs mv mf pl, env.vert_file = some bs → env.create_shader_module bs = Except.ok mv →
      env.frag_file = some cs → env.create_shader_module cs = Except.ok mf →
      env.create_graphics_pipelines = Except.ok pl →
      create_pipeline env =
        RunResult.ok (pl, [DeviceOp.destroy_shader_module mv,
          DeviceOp.destroy_shader_module mf])) := by
  refine ⟨fun h => ?_, fun bs m h1 h2 h3 => ?_, fun bs e h1 h2 => ?_,
    fun bs cs m e h1 h2 h3 h4 => ?_, fun bs cs mv mf e h1 h2 h3 h4 h5 => ?_,
    fun bs cs mv mf pl h1 h2 h3 h4 h5 => ?_⟩ <;>
    simp [create_pipeline, load_shaders, load_shader_module, *]

/-- Pipeline environment in which both files load and all driver calls
succeed, producing modules 11 and 12 and pipeline 9. -/
def envAllOk : PipelineEnv :=
  ⟨some [1], some [2], fun bs => Except.ok (10 + bs.headD 0), Except.ok 9⟩

/-- C6 witness: the amended characterization at the all-success environment
(both shader modules destroyed) and at the missing-vertex-file environment
(a panic). -/
theorem c6_pipeline_error_amended_witness :
    create_pipeline envAllOk =
      RunResult.ok (9, [DeviceOp.destroy_shader_module 11,
        DeviceOp.destroy_shader_module 12]) ∧
    create_pipeline envMissingVert = RunResult.panicked :=
  ⟨(c6_pipeline_error_amended envAllOk).2.2.2.2.2 [1] [2] 11 12 9 rfl rfl rfl rfl rfl,
   (c6_pipeline_error_amended envMissingVert).1 rfl⟩

/-- Closed form of the offset table produced by the concatenation loop when
the vertex and index accumulators already hold v and i elements. -/
def offsetsFrom (v i : Nat) : List Mesh → List MeshOffset
  | [] => []
  | m :: rest =>
    ⟨i, v, m.indices.length⟩ :: offsetsFrom (v + m.vertices.length) (i + m.indices.length) rest

theorem offsetsFrom_length (v i : Nat) (meshes : List Mesh) :
    (offsetsFrom v i meshes).length = meshes.length := by
  induction meshes generalizing v i with
  | nil => rfl
  | cons m rest ih => simp [offsetsFrom, ih]

theorem load_mesh_loop_eq (meshes : List Mesh) (offs : List MeshOffset)
    (vs : List Vertex) (is : List Nat) :
    List.foldl meshConcatStep (offs, vs, is) meshes =
      (offs ++ offsetsFrom vs.length is.length meshes,
       vs ++ (meshes.map Mesh.vertices).flatten,
       is ++ (meshes.map Mesh.indices).flatten) := by
  induction meshes generalizing offs vs is with
  | nil => simp [offsetsFrom]
  | cons m rest ih =>
    simp only [List.foldl_cons, meshConcatStep]
    rw [ih]
    simp [offsetsFrom, List.length_append, List.append_assoc]

theorem offsetsFrom_get? (meshes : List Mesh) (v i k : Nat) (hk : k < meshes.length) :
    (offsetsFrom v i meshes).get? k =
      some ⟨i + ((meshes.take k).map fun m => m.indices.length).sum,
            v + ((meshes.take k).map fun m => m.vertices.length).sum,
            (meshes.get ⟨k, hk⟩).indices.length⟩ := by
  induction meshes generalizing v i k with
  | nil => cases hk
  | cons m rest ih =>
    cases k with
    | zero => simp [offsetsFrom]
    | succ k =>
      have hk2 : k < rest.length := Nat.lt_of_succ_lt_succ hk
      have hih := ih (v + m.vertices.length) (i + m.indices.length) k hk2
      simp only [List.map_take, Nat.add_assoc, List.get?_eq_getElem?,
        List.get_eq_getElem] at hih
      simp [offsetsFrom, hih]

/-- C3: MeshOffset table correctness. The table built by the concatenation
loop of Device::load_mesh_data has one entry per mesh in registration order,
and entry i records as vertex_offset the total vertex count of the meshes
before i, as index_offset the total index count of the meshes before i, and
as index_count the index count of mesh i. -/
theorem c3_mesh_offset_table (meshes : List Mesh) (i : Nat) (h : i < meshes.length) :
    (load_mesh_offsets meshes).1.length = meshes.length ∧
    (load_mesh_offsets meshes).1.get? i =
      some ⟨((meshes.take i).map fun m => m.indices.length).sum,
            ((meshes.take i).map fun m => m.vertices.length).sum,
            (meshes.get ⟨i, h⟩).indices.length⟩ := by
  unfold load_mesh_offsets
  rw [load_mesh_loop_eq]
  have h0 := offsetsFrom_get? meshes 0 0 i h
  simp only [Nat.zero_add, List.map_take] at h0
  exact ⟨by simp [offsetsFrom_length], by simpa using h0⟩

/-- Two meshes with 0 and 0 vertices and 3 and 1 indices. -/
def exMeshes : List Mesh := [⟨[], [0, 1, 2]⟩, ⟨[], [0]⟩]

/-- C3 witness: for the concrete two-mesh list the second table entry records
index offset 3 (the first mesh's index count), vertex offset 0, and index
count 1. -/
theorem c3_mesh_offset_table_witness :
    (load_mesh_offsets exMeshes).1.length = 2 ∧
    (load_mesh_offsets exMeshes).1.get? 1 = some ⟨3, 0, 1⟩ := by
  have h := c3_mesh_offset_table exMeshes 1 (by decide)
  exact ⟨h.1, h.2.trans (by decide)⟩

/-- C10: for a device whose MeshOffset table was built from the construction
mesh list, Device::draw succeeds on every handle index below the mesh count
(the table lookup is in bounds) and panics on every index at or above it, the
handle's inner index being freely constructible. -/
theorem c10_draw_handle_bounds (meshes : List Mesh) (d : Device) (memory buffer : Nat)
    (hd : d.mesh_data = load_mesh_data meshes memory buffer)
    (frame : Frame) (world : Matrix4) (i : Nat) :
    (i < meshes.length →
      ∃ dev ops, d.draw frame i world = RunResult.ok (dev, ops)) ∧
    (meshes.length ≤ i → d.draw frame i world = RunResult.panicked) := by
  have hlen : d.mesh_data.mesh_offsets.length = meshes.length := by
    rw [hd]
    unfold load_mesh_data load_mesh_offsets
    rw [load_mesh_loop_eq]
    simp [offsetsFrom_length]
  constructor
  · intro hi
    have hget : ∃ o, d.mesh_data.mesh_offsets.get? i = some o := by
      rw [List.get?_eq_get (hlen ▸ hi)]
      exact ⟨_, rfl⟩
    obtain ⟨o, ho⟩ := hget
    unfold Device.draw
    rw [ho]
    exact ⟨_, _, rfl⟩
  · intro hi
    have hnone : d.mesh_data.mesh_offsets.get? i = none :=
      List.get?_eq_none.mpr (hlen ▸ hi)
    unfold Device.draw
    rw [hnone]

/-- Concrete swapchain with two images, all handles distinct, counter at 0. -/
def exSwapchain : Swapchain :=
  ⟨⟨800, 600⟩, [100, 101], [110, 111], ⟨120, 121, 122⟩, [130, 131], [140, 141],
   [150, 151], [160, 161], 170, [180, 181], 190, 0⟩

/-- Concrete device owning exSwapchain and the table of exMeshes. -/
def exDevice : Device :=
  ⟨⟨1, 2, 3, 4⟩, ⟨5, 6, 7⟩, 8, exSwapchain, ⟨9⟩, 10, load_mesh_data exMeshes 0 0⟩

/-- The frame exSwapchain hands out at slot 0 for image index 0. -/
def exFrame : Frame := ⟨180, 130, 140, 150, 160, 0⟩

/-- A concrete matrix. -/
def exMatrix : Matrix4 := ⟨⟨0, 0, 0, 0⟩, ⟨0, 0, 0, 0⟩, ⟨0, 0, 0, 0⟩, ⟨0, 0, 0, 0⟩⟩

/-- C10 witness: on the concrete device built from two meshes, drawing handle
0 succeeds and drawing handle 5 panics. -/
theorem c10_draw_handle_bounds_witness :
    (∃ dev ops, exDevice.draw exFrame 0 exMatrix = RunResult.ok (dev, ops)) ∧
    exDevice.draw exFrame 5 exMatrix = RunResult.panicked :=
  ⟨(c10_draw_handle_bounds exMeshes exDevice 0 0 rfl exFrame exMatrix 0).1 (by decide),
   (c10_draw_handle_bounds exMeshes exDevice 0 0 rfl exFrame exMatrix 5).2 (by decide)⟩

/-- C4: out-of-order Renderer calls are silent no-ops. With no open frame,
Backend::draw and Backend::end_frame record no device operation, leave the
backend unchanged and (for end_frame) return Ok; with a frame already open,
Backend::begin_frame performs no acquisition, leaves the backend (and thus
the open frame) unchanged and returns Ok. -/
theorem c4_misuse_silent_noop (b : Backend) (cam world : Matrix4) (mesh_idx : Nat)
    (aenv : AcquireEnv) (senv : SubmitEnv) :
    (b.current_frame = none →
      Backend.draw b mesh_idx world = RunResult.ok (b, [])) ∧
    (b.current_frame = none →
      Backend.end_frame b senv = RunResult.ok (b, [])) ∧
    (∀ f, b.current_frame = some f →
      Backend.begin_frame b cam aenv = RunResult.ok (b, [])) := by
  refine ⟨fun h => ?_, fun h => ?_, fun f h => ?_⟩ <;>
    simp [Backend.draw, Backend.end_frame, Backend.begin_frame, h]

/-- Backend with no open frame over the concrete device. -/
def exBackendClosed : Backend := ⟨none, exDevice⟩

/-- Backend with an open frame over the concrete device. -/
def exBackendOpen : Backend := ⟨some exFrame, exDevice⟩

/-- Acquire environment in which every driver call succeeds and image 0 is
returned. -/
def exAcquireEnv : AcquireEnv :=
  ⟨Except.ok (0, false), Except.ok (), Except.ok (), Except.ok ()⟩

/-- Submit environment in which every driver call succeeds. -/
def exSubmitEnv : SubmitEnv := ⟨Except.ok (), Except.ok (), Except.ok false⟩

/-- C4 witness: the three no-op cases at concrete backends. -/
theorem c4_misuse_silent_noop_witness :
    Backend.draw exBackendClosed 0 exMatrix = RunResult.ok (exBackendClosed, []) ∧
    Backend.end_frame exBackendClosed exSubmitEnv = RunResult.ok (exBackendClosed, []) ∧
    Backend.begin_frame exBackendOpen exMatrix exAcquireEnv =
      RunResult.ok (exBackendOpen, []) :=
  ⟨(c4_misuse_silent_noop exBackendClosed exMatrix exMatrix 0 exAcquireEnv exSubmitEnv).1 rfl,
   (c4_misuse_silent_noop exBackendClosed exMatrix exMatrix 0 exAcquireEnv exSubmitEnv).2.1 rfl,
   (c4_misuse_silent_noop exBackendOpen exMatrix exMatrix 0 exAcquireEnv exSubmitEnv).2.2
     exFrame rfl⟩

/-- C8: push-constant layout. The pipeline layout declares exactly one
push-constant range, of 2 * 64 = 128 bytes at offset 0 visible only to the
vertex stage; a successful Device::begin_frame records exactly one
push-constant write, of the camera matrix's 64 bytes at offset 0 in the
vertex stage; a successful Device::draw records exactly one push-constant
write, of the world matrix's 64 bytes at offset 64 in the vertex stage. -/
theorem c8_push_constant_layout :
    (create_layout_push_ranges = [⟨ShaderStage.VERTEX, 128, 0⟩] ∧
     CAMERA_PUSH_OFFSET = 0 ∧ WORLD_PUSH_OFFSET = 64 ∧ size_of_Matrix4 = 64) ∧
    (∀ (d : Device) (cam : Matrix4) (env : AcquireEnv) (d2 : Device) (f : Frame)
       (ops : List DeviceOp), d.begin_frame cam env = RunResult.ok (d2, f, ops) →
      ops = [DeviceOp.begin_render_pass d.render_pass f.framebuffer,
             DeviceOp.bind_pipeline d.pipeline,
             DeviceOp.push_constants ShaderStage.VERTEX 0 64 cam,
             DeviceOp.bind_vertex_buffer d.mesh_data.buffer d.mesh_data.vertex_offset,
             DeviceOp.bind_index_buffer d.mesh_data.buffer d.mesh_data.index_offset]) ∧
    (∀ (d : Device) (f : Frame) (i : Nat) (world : Matrix4) (d2 : Device)
       (ops : List DeviceOp), d.draw f i world = RunResult.ok (d2, ops) →
      ∃ offsets, d.mesh_data.mesh_offsets.get? i = some offsets ∧
        ops = [DeviceOp.push_constants ShaderStage.VERTEX 64 64 world,
               DeviceOp.draw_indexed offsets.index_count 1 offsets.index_offset
                 offsets.vertex_offset 0]) := by
  refine ⟨⟨rfl, rfl, rfl, rfl⟩, ?_, ?_⟩
  · intro d cam env d2 f ops h
    unfold Device.begin_frame at h
    split at h
    · cases h
    · cases h
    · cases h
      rfl
  · intro d f i world d2 ops h
    unfold Device.draw at h
    split at h
    · cases h
    case _ offsets hget =>
      cases h
      exact ⟨offsets, hget, rfl⟩

/-- C8 witness: begin_frame and draw at the concrete device record the camera
write at offset 0 and the world write at offset 64. -/
theorem c8_push_constant_layout_witness :
    (∃ ops, exDevice.begin_frame exMatrix exAcquireEnv =
        RunResult.ok (exDevice, exFrame, ops) ∧
      ops = [DeviceOp.begin_render_pass 8 130,
             DeviceOp.bind_pipeline 10,
             DeviceOp.push_constants ShaderStage.VERTEX 0 64 exMatrix,
             DeviceOp.bind_vertex_buffer 0 0,
             DeviceOp.bind_index_buffer 0 0]) ∧
    (∃ ops, exDevice.draw exFrame 0 exMatrix = RunResult.ok (exDevice, ops) ∧
      ops = [DeviceOp.push_constants ShaderStage.VERTEX 64 64 exMatrix,
             DeviceOp.draw_indexed 3 1 0 0 0]) := by
  constructor
  · refine ⟨_, rfl, ?_⟩
    exact c8_push_constant_layout.2.1 exDevice exMatrix exAcquireEnv exDevice exFrame _ rfl
  · refine ⟨_, rfl, ?_⟩
    obtain ⟨offsets, hoff, hops⟩ :=
      c8_push_constant_layout.2.2 exDevice exFrame 0 exMatrix exDevice _ rfl
    have : offsets = ⟨0, 0, 3⟩ := by
      have h0 : exDevice.mesh_data.mesh_offsets.get? 0 = some ⟨0, 0, 3⟩ := by decide
      rw [h0] at hoff
      exact (Option.some.inj hoff).symm
    rw [hops, this]

theorem acquire_image_state_eq (s : Swapchain) (env : AcquireEnv) (s2 : Swapchain)
    (fr : Frame) (h : s.acquire_image env = RunResult.ok (s2, fr)) : s2 = s := by
  unfold Swapchain.acquire_image at h
  repeat' ((try symm at h); split at h)
  all_goals (try symm at h)
  all_goals (cases h; try rfl)

/-- C9: frame-slot counter framing. A successful Swapchain::present_image
advances the frame field by exactly one modulo the image count and changes no
other Swapchain field; a successful Swapchain::acquire_image returns the
swapchain unchanged; Device::begin_frame leaves the device's swapchain (hence
its counter) unchanged; Device::draw leaves the whole device unchanged. -/
theorem c9_frame_counter_framing (s : Swapchain) (aenv : AcquireEnv) (penv : PresentEnv)
    (d : Device) (cam world : Matrix4) (f : Frame) (i : Nat) :
    (∀ s2 sub, s.present_image penv = RunResult.ok (s2, sub) →
      s2.frame = (s.frame + 1) % s.images.length ∧
      s2.extent = s.extent ∧ s2.images = s.images ∧ s2.views = s.views ∧
      s2.depth_buffer = s.depth_buffer ∧ s2.framebuffers = s.framebuffers ∧
      s2.image_available = s.image_available ∧
      s2.image_draw_ready = s.image_draw_ready ∧
      s2.image_draw_finished = s.image_draw_finished ∧ s2.pool = s.pool ∧
      s2.command_buffers = s.command_buffers ∧ s2.handle = s.handle) ∧
    (∀ s2 fr, s.acquire_image aenv = RunResult.ok (s2, fr) → s2 = s) ∧
    (∀ d2 fr ops, d.begin_frame cam aenv = RunResult.ok (d2, fr, ops) →
      d2.swapchain = d.swapchain) ∧
    (∀ d2 ops, d.draw f i world = RunResult.ok (d2, ops) → d2 = d) := by
  refine ⟨?_, ?_, ?_, ?_⟩
  · intro s2 sub h
    unfold Swapchain.present_image at h
    split at h
    · cases h
    · cases h
      exact ⟨rfl, rfl, rfl, rfl, rfl, rfl, rfl, rfl, rfl, rfl, rfl, rfl⟩
  · intro s2 fr h
    exact acquire_image_state_eq s aenv s2 fr h
  · intro d2 fr ops h
    unfold Device.begin_frame at h
    rcases hacq : d.swapchain.acquire_image aenv with _ | e | ⟨sc, fr2⟩ <;> rw [hacq] at h
    · cases h
    · cases h
    · cases h
      exact acquire_image_state_eq _ _ _ _ hacq
  · intro d2 ops h
    unfold Device.draw at h
    split at h
    · cases h
    · cases h
      rfl

/-- Present environment in which queue_present succeeds without suboptimal. -/
def exPresentEnv : PresentEnv := ⟨Except.ok false⟩

/-- C9 witness: at the concrete two-image swapchain a successful present
advances the counter from 0 to (0+1) % 2 = 1, and a successful acquire
returns the swapchain unchanged. -/
theorem c9_frame_counter_framing_witness :
    (∃ s2, exSwapchain.present_image exPresentEnv = RunResult.ok (s2, false) ∧
      s2.frame = (exSwapchain.frame + 1) % exSwapchain.images.length) ∧
    exSwapchain.acquire_image exAcquireEnv = RunResult.ok (exSwapchain, exFrame) := by
  constructor
  · refine ⟨_, rfl, ?_⟩
    exact ((c9_frame_counter_framing exSwapchain exAcquireEnv exPresentEnv exDevice exMatrix
      exMatrix exFrame 0).1 _ false rfl).1
  · rfl

/- ----------------------------------------------------------------- -/
/- Queue-family resolution invariant (claim C1)                        -/
/- ----------------------------------------------------------------- -/

/-- Number of graphics-capable families in a list. -/
def countG (fams : List FamilyProps) : Nat := fams.countP fun p => p.graphics

theorem countG_append (fams : List FamilyProps) (p : FamilyProps) :
    countG (fams ++ [p]) = countG fams + (if p.graphics = true then 1 else 0) := by
  simp [countG, List.countP_append, List.countP_cons]

theorem countG_eq_zero (fams : List FamilyProps) :
    countG fams = 0 ↔ ∀ q ∈ fams, q.graphics = false := by
  simp [countG, List.countP_eq_zero]

theorem countG_pos_of_get? (fams : List FamilyProps) (j : Nat) (q : FamilyProps)
    (hj : fams.get? j = some q) (hq : q.graphics = true) : 1 ≤ countG fams := by
  have hmem : q ∈ fams := List.get?_mem hj
  have : 0 < countG fams := by
    rw [countG, List.countP_pos_iff]
    exact ⟨q, hmem, by simp [hq]⟩
  omega

/-- Loop invariant of Device::queue_families relating the four Option locals
to the processed family list: graphics is the first graphics-capable family;
compute is graphics-capable and equals graphics exactly while at most one
graphics-capable family was seen; transfer is transfer-capable and distinct
from graphics and compute whenever some transfer-capable family distinct from
both exists; present is the last family with surface support Ok(true). -/
structure QFInv (fams : List FamilyProps) (s : QFState) : Prop where
  gr_none : s.graphics = none ↔ ∀ q ∈ fams, q.graphics = false
  gr_some : ∀ g, s.graphics = some g → g < fams.length ∧
    (∃ q, fams.get? g = some q ∧ q.graphics = true) ∧
    ∀ j q, j < g → fams.get? j = some q → q.graphics = false
  co_none : s.compute = none ↔ s.graphics = none
  co_some : ∀ c, s.compute = some c → c < fams.length ∧
    ∃ q, fams.get? c = some q ∧ q.graphics = true
  co_eq : s.compute = s.graphics ↔ countG fams ≤ 1
  tr_none : s.transfer = none ↔ ∀ q ∈ fams, q.transfer = false
  tr_some : ∀ t, s.transfer = some t → t < fams.length ∧
    ∃ q, fams.get? t = some q ∧ q.transfer = true
  tr_dist : (∃ j q, fams.get? j = some q ∧ q.transfer = true ∧
      some j ≠ s.graphics ∧ some j ≠ s.compute) →
    s.transfer ≠ s.graphics ∧ s.transfer ≠ s.compute
  pr_none : s.present = none ↔ ∀ q ∈ fams, q.present ≠ some true
  pr_some : ∀ r, s.present = some r → r < fams.length ∧
    (∃ q, fams.get? r = some q ∧ q.present = some true) ∧
    ∀ j q, r < j → fams.get? j = some q → q.present ≠ some true

theorem QFInv.init : QFInv [] ⟨none, none, none, none⟩ := by
  refine ⟨?_, ?_, ?_, ?_, ?_, ?_, ?_, ?_, ?_, ?_⟩ <;>
    simp [countG]

theorem get?_concat_cases {α : Type} (l : List α) (x : α) (j : Nat) (q : α)
    (h : (l ++ [x]).get? j = some q) :
    (j < l.length ∧ l.get? j = some q) ∨ (j = l.length ∧ q = x) := by
  by_cases hj : j < l.length
  · exact Or.inl ⟨hj, by rwa [List.get?_append hj] at h⟩
  · right
    have hlen : j < (l ++ [x]).length := by
      by_contra hge
      rw [List.get?_eq_none.mpr (Nat.le_of_not_lt hge)] at h
      cases h
    have hj2 : j = l.length := by
      simp only [List.length_append, List.length_singleton] at hlen
      omega
    subst hj2
    rw [List.get?_concat_length] at h
    exact ⟨rfl, (Option.some.inj h).symm⟩

theorem step_gr_none (fams : List FamilyProps) (s : QFState) (p : FamilyProps)
    (inv : QFInv fams s) :
    qfGraphics s fams.length p = none ↔ ∀ q ∈ fams ++ [p], q.graphics = false := by
  unfold qfGraphics
  by_cases hc : s.graphics = none ∧ p.graphics = true
  · rw [if_pos hc]
    simp only [reduceCtorEq, false_iff, not_forall]
    exact ⟨p, by simp [hc.2]⟩
  · rw [if_neg hc, inv.gr_none]
    constructor
    · intro hall q hq
      rcases List.mem_append.mp hq with hmem | hmem
      · exact hall q hmem
      · have hqp : q = p := by simpa using hmem
        subst hqp
        have hsg : s.graphics = none := inv.gr_none.mpr hall
        rcases hb : q.graphics with _ | _
        · rfl
        · exact absurd ⟨hsg, hb⟩ hc
    · intro hall q hq
      exact hall q (List.mem_append_left _ hq)

theorem step_gr_some (fams : List FamilyProps) (s : QFState) (p : FamilyProps)
    (inv : QFInv fams s) :
    ∀ g, qfGraphics s fams.length p = some g → g < (fams ++ [p]).length ∧
      (∃ q, (fams ++ [p]).get? g = some q ∧ q.graphics = true) ∧
      ∀ j q, j < g → (fams ++ [p]).get? j = some q → q.graphics = false := by
  intro g hg
  unfold qfGraphics at hg
  by_cases hc : s.graphics = none ∧ p.graphics = true
  · rw [if_pos hc] at hg
    have hgn : g = fams.length := (Option.some.inj hg).symm
    subst hgn
    refine ⟨by simp, ⟨p, List.get?_concat_length fams p, hc.2⟩, ?_⟩
    intro j q hj hq
    rw [List.get?_append hj] at hq
    exact inv.gr_none.mp hc.1 q (List.get?_mem hq)
  · rw [if_neg hc] at hg
    obtain ⟨hlt, ⟨q, hq, hqg⟩, hmin⟩ := inv.gr_some g hg
    refine ⟨by simp; omega, ⟨q, by rwa [List.get?_append hlt], hqg⟩, ?_⟩
    intro j r hj hr
    have hjlt : j < fams.length := Nat.lt_trans hj hlt
    rw [List.get?_append hjlt] at hr
    exact hmin j r hj hr

theorem step_co_none (fams : List FamilyProps) (s : QFState) (p : FamilyProps)
    (inv : QFInv fams s) :
    qfCompute s fams.length p = none ↔ qfGraphics s fams.length p = none := by
  by_cases hpg : p.graphics = true
  · have hgr_ne : qfGraphics s fams.length p ≠ none := by
      unfold qfGraphics
      by_cases hsg : s.graphics = none
      · rw [if_pos ⟨hsg, hpg⟩]
        simp
      · rw [if_neg (fun h => hsg h.1)]
        exact hsg
    have hco_ne : qfCompute s fams.length p ≠ none := by
      unfold qfCompute
      by_cases hcond : qfGraphics s fams.length p = s.compute ∨ s.compute = none
      · rw [if_pos ⟨hpg, hcond⟩]
        simp
      · rw [if_neg (fun h => hcond h.2)]
        intro h
        exact hcond (Or.inr h)
    constructor
    · intro h
      exact absurd h hco_ne
    · intro h
      exact absurd h hgr_ne
  · have hgr : qfGraphics s fams.length p = s.graphics := by
      unfold qfGraphics
      rw [if_neg (fun h => hpg h.2)]
    have hco : qfCompute s fams.length p = s.compute := by
      unfold qfCompute
      rw [if_neg (fun h => hpg h.1)]
    rw [hgr, hco]
    exact inv.co_none

theorem step_co_some (fams : List FamilyProps) (s : QFState) (p : FamilyProps)
    (inv : QFInv fams s) :
    ∀ c, qfCompute s fams.length p = some c → c < (fams ++ [p]).length ∧
      ∃ q, (fams ++ [p]).get? c = some q ∧ q.graphics = true := by
  intro c hc
  unfold qfCompute at hc
  by_cases hcond : p.graphics = true ∧
      (qfGraphics s fams.length p = s.compute ∨ s.compute = none)
  · rw [if_pos hcond] at hc
    have hcn : c = fams.length := (Option.some.inj hc).symm
    subst hcn
    exact ⟨by simp, p, List.get?_concat_length fams p, hcond.1⟩
  · rw [if_neg hcond] at hc
    obtain ⟨hlt, q, hq, hqg⟩ := inv.co_some c hc
    exact ⟨by simp; omega, q, by rwa [List.get?_append hlt], hqg⟩

theorem step_co_eq (fams : List FamilyProps) (s : QFState) (p : FamilyProps)
    (inv : QFInv fams s) :
    qfCompute s fams.length p = qfGraphics s fams.length p ↔
      countG (fams ++ [p]) ≤ 1 := by
  rw [countG_append]
  by_cases hpg : p.graphics = true
  · rw [if_pos hpg]
    by_cases hsg : s.graphics = none
    · have hcount : countG fams = 0 := (countG_eq_zero fams).mpr (inv.gr_none.mp hsg)
      have hsc : s.compute = none := inv.co_none.mpr hsg
      have hgr : qfGraphics s fams.length p = some fams.length := by
        unfold qfGraphics
        rw [if_pos ⟨hsg, hpg⟩]
      have hco : qfCompute s fams.length p = some fams.length := by
        unfold qfCompute
        rw [if_pos ⟨hpg, Or.inr hsc⟩]
      rw [hgr, hco, hcount]
      simp
    · obtain ⟨g, hg⟩ := Option.ne_none_iff_exists'.mp hsg
      have hglt := (inv.gr_some g hg).1
      have hgr : qfGraphics s fams.length p = some g := by
        unfold qfGraphics
        rw [if_neg (fun h => hsg h.1)]
        exact hg
      by_cases hcg : s.compute = s.graphics
      · have hcount : countG fams = 1 := by
          obtain ⟨q, hq, hqg⟩ := (inv.gr_some g hg).2.1
          have hone : 1 ≤ countG fams := countG_pos_of_get? fams g q hq hqg
          have hle := inv.co_eq.mp hcg
          omega
        have hco : qfCompute s fams.length p = some fams.length := by
          unfold qfCompute
          rw [if_pos ⟨hpg, Or.inl (by rw [hgr, hcg, hg])⟩]
        rw [hco, hgr, hcount]
        constructor
        · intro h
          have h2 := Option.some.inj h
          omega
        · intro h
          exact absurd h (by omega)
      · have hge : ¬ countG fams ≤ 1 := fun hle => hcg (inv.co_eq.mpr hle)
        have hco : qfCompute s fams.length p = s.compute := by
          unfold qfCompute
          rw [if_neg]
          intro h
          rcases h.2 with h2 | h2
          · exact hcg ((h2.symm.trans hgr).trans hg.symm)
          · exact hsg (inv.co_none.mp h2)
        rw [hco, hgr]
        constructor
        · intro h
          exact absurd (inv.co_eq.mp (h.trans hg.symm)) hge
        · intro h
          exact absurd (by omega : countG fams ≤ 1) hge
  · rw [if_neg hpg, Nat.add_zero]
    have hgr : qfGraphics s fams.length p = s.graphics := by
      unfold qfGraphics
      rw [if_neg (fun h => hpg h.2)]
    have hco : qfCompute s fams.length p = s.compute := by
      unfold qfCompute
      rw [if_neg (fun h => hpg h.1)]
    rw [hgr, hco]
    exact inv.co_eq

theorem step_tr_none (fams : List FamilyProps) (s : QFState) (p : FamilyProps)
    (inv : QFInv fams s) :
    qfTransfer s fams.length p = none ↔ ∀ q ∈ fams ++ [p], q.transfer = false := by
  by_cases hpt : p.transfer = true
  · have htr_ne : qfTransfer s fams.length p ≠ none := by
      unfold qfTransfer
      by_cases hcond : s.transfer = qfGraphics s fams.length p ∨
          s.transfer = qfCompute s fams.length p ∨ s.transfer = none
      · rw [if_pos ⟨hpt, hcond⟩]
        simp
      · rw [if_neg (fun h => hcond h.2)]
        intro h
        exact hcond (Or.inr (Or.inr h))
    constructor
    · intro h
      exact absurd h htr_ne
    · intro hall
      have hp := hall p (by simp)
      rw [hpt] at hp
      cases hp
  · have htr : qfTransfer s fams.length p = s.transfer := by
      unfold qfTransfer
      rw [if_neg (fun h => hpt h.1)]
    rw [htr, inv.tr_none]
    constructor
    · intro hall q hq
      rcases List.mem_append.mp hq with hmem | hmem
      · exact hall q hmem
      · have hqp : q = p := by simpa using hmem
        subst hqp
        simpa using hpt
    · intro hall q hq
      exact hall q (List.mem_append_left _ hq)

theorem step_tr_some (fams : List FamilyProps) (s : QFState) (p : FamilyProps)
    (inv : QFInv fams s) :
    ∀ t, qfTransfer s fams.length p = some t → t < (fams ++ [p]).length ∧
      ∃ q, (fams ++ [p]).get? t = some q ∧ q.transfer = true := by
  intro t ht
  unfold qfTransfer at ht
  by_cases hcond : p.transfer = true ∧ (s.transfer = qfGraphics s fams.length p ∨
      s.transfer = qfCompute s fams.length p ∨ s.transfer = none)
  · rw [if_pos hcond] at ht
    have htn : t = fams.length := (Option.some.inj ht).symm
    subst htn
    exact ⟨by simp, p, List.get?_concat_length fams p, hcond.1⟩
  · rw [if_neg hcond] at ht
    obtain ⟨hlt, q, hq, hqt⟩ := inv.tr_some t ht
    exact ⟨by simp; omega, q, by rwa [List.get?_append hlt], hqt⟩

theorem step_tr_dist (fams : List FamilyProps) (s : QFState) (p : FamilyProps)
    (inv : QFInv fams s) :
    (∃ j q, (fams ++ [p]).get? j = some q ∧ q.transfer = true ∧
      some j ≠ qfGraphics s fams.length p ∧ some j ≠ qfCompute s fams.length p) →
    qfTransfer s fams.length p ≠ qfGraphics s fams.length p ∧
    qfTransfer s fams.length p ≠ qfCompute s fams.length p := by
  intro hyp
  obtain ⟨j, q, hjq, hqt, hjg, hjc⟩ := hyp
  have hg_ne : s.graphics ≠ some fams.length := by
    intro h
    have := (inv.gr_some _ h).1
    omega
  have hc_ne : s.compute ≠ some fams.length := by
    intro h
    have := (inv.co_some _ h).1
    omega
  have ht_ne : s.transfer ≠ some fams.length := by
    intro h
    have := (inv.tr_some _ h).1
    omega
  by_cases hcond : p.transfer = true ∧ (s.transfer = qfGraphics s fams.length p ∨
      s.transfer = qfCompute s fams.length p ∨ s.transfer = none)
  · -- transfer branch fires: new transfer is the current family index
    have htr : qfTransfer s fams.length p = some fams.length := by
      unfold qfTransfer
      rw [if_pos hcond]
    rw [htr]
    by_cases hga : s.graphics = none ∧ p.graphics = true
    · -- graphics and compute both become the current family; the hypothesis
      -- witness must then be an older transfer family, impossible since the
      -- old transfer local was still none
      exfalso
      have hgr : qfGraphics s fams.length p = some fams.length := by
        unfold qfGraphics
        rw [if_pos hga]
      have hjn : j ≠ fams.length := fun h => hjg (by rw [h, hgr])
      have hjlt : j < fams.length ∧ fams.get? j = some q := by
        rcases get?_concat_cases fams p j q hjq with hcase | hcase
        · exact hcase
        · exact absurd hcase.1 hjn
      have hsc : s.compute = none := inv.co_none.mpr hga.1
      have hct : qfCompute s fams.length p = some fams.length := by
        unfold qfCompute
        rw [if_pos ⟨hga.2, Or.inr hsc⟩]
      have hst : s.transfer = none := by
        rcases hcond.2 with h2 | h2 | h2
        · rw [hgr] at h2
          exact absurd h2 ht_ne
        · rw [hct] at h2
          exact absurd h2 ht_ne
        · exact h2
      exact absurd hqt (by simp [inv.tr_none.mp hst q (List.get?_mem hjlt.2)])
    · have hgr : qfGraphics s fams.length p = s.graphics := by
        unfold qfGraphics
        rw [if_neg hga]
      rw [hgr] at hjg ⊢
      by_cases hcb : p.graphics = true ∧
          (qfGraphics s fams.length p = s.compute ∨ s.compute = none)
      · -- compute branch also fires: derive a contradiction from the
        -- distinct transfer family of the hypothesis via the old invariant
        exfalso
        have hsg_ne : s.graphics ≠ none := fun h => hga ⟨h, hcb.1⟩
        obtain ⟨g, hg⟩ := Option.ne_none_iff_exists'.mp hsg_ne
        have hscg : s.compute = s.graphics := by
          rcases hcb.2 with h2 | h2
          · rw [hgr] at h2
            exact h2.symm
          · exact absurd (inv.co_none.mp h2) hsg_ne
        have hct : qfCompute s fams.length p = some fams.length := by
          unfold qfCompute
          rw [if_pos hcb]
        have hjn : j ≠ fams.length := fun h => hjc (by rw [h, hct])
        have hjlt : j < fams.length ∧ fams.get? j = some q := by
          rcases get?_concat_cases fams p j q hjq with hcase | hcase
          · exact hcase
          · exact absurd hcase.1 hjn
        have hdist := inv.tr_dist ⟨j, q, hjlt.2, hqt, hjg, by rw [hscg]; exact hjg⟩
        rcases hcond.2 with h2 | h2 | h2
        · rw [hgr] at h2
          exact hdist.1 h2
        · rw [hct] at h2
          exact absurd h2 ht_ne
        · exact absurd hqt
            (by simp [inv.tr_none.mp h2 q (List.get?_mem hjlt.2)])
      · have hct : qfCompute s fams.length p = s.compute := by
          unfold qfCompute
          rw [if_neg hcb]
        rw [hct]
        exact ⟨fun h => hg_ne h.symm, fun h => hc_ne h.symm⟩
  · -- transfer branch does not fire: transfer keeps its old value
    have htr : qfTransfer s fams.length p = s.transfer := by
      unfold qfTransfer
      rw [if_neg hcond]
    rw [htr]
    by_cases hpt : p.transfer = true
    · -- the branch condition failed on the disjunction: the old transfer
      -- already differs from the new graphics and compute
      have hd : ¬(s.transfer = qfGraphics s fams.length p ∨
          s.transfer = qfCompute s fams.length p ∨ s.transfer = none) :=
        fun h => hcond ⟨hpt, h⟩
      push_neg at hd
      exact ⟨hd.1, hd.2.1⟩
    · -- the appended family is not transfer-capable, so the hypothesis
      -- witness lies in the old list and the old invariant applies
      have hjlt : j < fams.length ∧ fams.get? j = some q := by
        rcases get?_concat_cases fams p j q hjq with hcase | hcase
        · exact hcase
        · exfalso
          rw [hcase.2] at hqt
          exact hpt hqt
      by_cases hga : s.graphics = none ∧ p.graphics = true
      · have hgr : qfGraphics s fams.length p = some fams.length := by
          unfold qfGraphics
          rw [if_pos hga]
        have hsc : s.compute = none := inv.co_none.mpr hga.1
        have hct : qfCompute s fams.length p = some fams.length := by
          unfold qfCompute
          rw [if_pos ⟨hga.2, Or.inr hsc⟩]
        rw [hgr, hct]
        exact ⟨ht_ne, ht_ne⟩
      · have hgr : qfGraphics s fams.length p = s.graphics := by
          unfold qfGraphics
          rw [if_neg hga]
        rw [hgr] at hjg ⊢
        by_cases hcb : p.graphics = true ∧
            (qfGraphics s fams.length p = s.compute ∨ s.compute = none)
        · have hsg_ne : s.graphics ≠ none := fun h => hga ⟨h, hcb.1⟩
          have hscg : s.compute = s.graphics := by
            rcases hcb.2 with h2 | h2
            · rw [hgr] at h2
              exact h2.symm
            · exact absurd (inv.co_none.mp h2) hsg_ne
          have hct : qfCompute s fams.length p = some fams.length := by
            unfold qfCompute
            rw [if_pos hcb]
          rw [hct]
          have hdist := inv.tr_dist ⟨j, q, hjlt.2, hqt, hjg, by rw [hscg]; exact hjg⟩
          exact ⟨hdist.1, ht_ne⟩
        · have hct : qfCompute s fams.length p = s.compute := by
            unfold qfCompute
            rw [if_neg hcb]
          rw [hct] at hjc ⊢
          exact inv.tr_dist ⟨j, q, hjlt.2, hqt, hjg, hjc⟩

theorem step_pr_none (fams : List FamilyProps) (s : QFState) (p : FamilyProps)
    (inv : QFInv fams s) :
    qfPresent s fams.length p = none ↔ ∀ q ∈ fams ++ [p], q.present ≠ some true := by
  unfold qfPresent
  by_cases hps : p.present = some true
  · rw [if_pos hps]
    simp only [reduceCtorEq, false_iff, not_forall]
    exact ⟨p, by simp [hps]⟩
  · rw [if_neg hps, inv.pr_none]
    constructor
    · intro hall q hq
      rcases List.mem_append.mp hq with hmem | hmem
      · exact hall q hmem
      · have hqp : q = p := by simpa using hmem
        subst hqp
        exact hps
    · intro hall q hq
      exact hall q (List.mem_append_left _ hq)

theorem step_pr_some (fams : List FamilyProps) (s : QFState) (p : FamilyProps)
    (inv : QFInv fams s) :
    ∀ r, qfPresent s fams.length p = some r → r < (fams ++ [p]).length ∧
      (∃ q, (fams ++ [p]).get? r = some q ∧ q.present = some true) ∧
      ∀ j q, r < j → (fams ++ [p]).get? j = some q → q.present ≠ some true := by
  intro r hr
  unfold qfPresent at hr
  by_cases hps : p.present = some true
  · rw [if_pos hps] at hr
    have hrn : r = fams.length := (Option.some.inj hr).symm
    subst hrn
    refine ⟨by simp, ⟨p, List.get?_concat_length fams p, hps⟩, ?_⟩
    intro j q hj hq
    have hnone : (fams ++ [p]).get? j = none := by
      apply List.get?_eq_none.mpr
      simp only [List.length_append, List.length_singleton]
      omega
    rw [hnone] at hq
    cases hq
  · rw [if_neg hps] at hr
    obtain ⟨hlt, ⟨q, hq, hqs⟩, hlast⟩ := inv.pr_some r hr
    refine ⟨by simp; omega, ⟨q, by rwa [List.get?_append hlt], hqs⟩, ?_⟩
    intro j w hj hw
    rcases get?_concat_cases fams p j w hw with hcase | hcase
    · exact hlast j w hj hcase.2
    · rw [hcase.2]
      exact hps

theorem QFInv.step (fams : List FamilyProps) (s : QFState) (p : FamilyProps)
    (inv : QFInv fams s) : QFInv (fams ++ [p]) (qfStep s fams.length p) where
  gr_none := step_gr_none fams s p inv
  gr_some := step_gr_some fams s p inv
  co_none := step_co_none fams s p inv
  co_some := step_co_some fams s p inv
  co_eq := step_co_eq fams s p inv
  tr_none := step_tr_none fams s p inv
  tr_some := step_tr_some fams s p inv
  tr_dist := step_tr_dist fams s p inv
  pr_none := step_pr_none fams s p inv
  pr_some := step_pr_some fams s p inv

theorem qfLoop_append (k : Nat) (xs : List FamilyProps) (x : FamilyProps) (s : QFState) :
    qfLoop k (xs ++ [x]) s = qfStep (qfLoop k xs s) (k + xs.length) x := by
  induction xs generalizing k s with
  | nil => simp [qfLoop]
  | cons p rest ih =>
    show qfLoop (k + 1) (rest ++ [x]) (qfStep s k p) = _
    rw [ih]
    have harith : k + 1 + rest.length = k + (p :: rest).length := by
      simp only [List.length_cons]
      omega
    rw [harith]
    rfl

theorem qfRun_append (fams : List FamilyProps) (p : FamilyProps) :
    qfRun (fams ++ [p]) = qfStep (qfRun fams) fams.length p := by
  unfold qfRun
  rw [qfLoop_append]
  simp

theorem qfRun_inv (fams : List FamilyProps) : QFInv fams (qfRun fams) := by
  induction fams using List.reverseRecOn with
  | nil => exact QFInv.init
  | append_singleton xs x ih =>
    rw [qfRun_append]
    exact QFInv.step xs (qfRun xs) x ih

theorem countG_two (fams : List FamilyProps) (i j : Nat) (hij : i < j)
    (qi qj : FamilyProps) (hi : fams.get? i = some qi) (hqi : qi.graphics = true)
    (hj : fams.get? j = some qj) (hqj : qj.graphics = true) : 2 ≤ countG fams := by
  have h1 : 1 ≤ countG (fams.take j) := by
    apply countG_pos_of_get? _ i qi _ hqi
    rw [List.get?_take hij]
    exact hi
  have h2 : 1 ≤ countG (fams.drop j) := by
    apply countG_pos_of_get? _ 0 qj _ hqj
    rw [List.get?_drop]
    simpa using hj
  have hsum : countG (fams.take j) + countG (fams.drop j) = countG fams := by
    unfold countG
    rw [← List.countP_append, List.take_append_drop]
  omega

/-- Family list whose families 0 and 1 both report presentation support. -/
def famsPresentPair : List FamilyProps :=
  [⟨true, true, some true⟩, ⟨false, false, some true⟩]

/-- C1, counterexample: with two families both reporting presentation support
the loop of Device::queue_families overwrites the present index at each
supporting family, resolving present to 1, the last supporting family — not
to family 0, the first family the surface reports as supporting presentation,
as the claim states. -/
theorem c1_queue_families_counterexample :
    queue_families famsPresentPair = some ⟨0, 0, 0, 1⟩ ∧
    famsPresentPair.get? 0 = some ⟨true, true, some true⟩ := by
  decide

/-- C1, amended: for every family list yielding a configuration, graphics is
the first graphics-capable family; compute is graphics-capable and differs
from graphics whenever any other graphics-capable family exists; transfer is
transfer-capable and distinct from both graphics and compute whenever a
transfer-capable family distinct from both exists; present is the last
family the surface reports as supporting presentation. Resolution yields a
configuration exactly when a graphics-capable, a transfer-capable and a
presentation-supporting family all exist (so it returns None exactly when one
of the four indices cannot be resolved). -/
theorem c1_queue_families_amended (fams : List FamilyProps) :
    (∀ qf, queue_families fams = some qf →
      ((∃ q, fams.get? qf.graphics = some q ∧ q.graphics = true) ∧
        ∀ j q, j < qf.graphics → fams.get? j = some q → q.graphics = false) ∧
      ((∃ q, fams.get? qf.compute = some q ∧ q.graphics = true) ∧
        ((∃ j q, fams.get? j = some q ∧ j ≠ qf.graphics ∧ q.graphics = true) →
          qf.compute ≠ qf.graphics)) ∧
      ((∃ q, fams.get? qf.transfer = some q ∧ q.transfer = true) ∧
        ((∃ j q, fams.get? j = some q ∧ q.transfer = true ∧ j ≠ qf.graphics ∧
            j ≠ qf.compute) →
          qf.transfer ≠ qf.graphics ∧ qf.transfer ≠ qf.compute)) ∧
      ((∃ q, fams.get? qf.present = some q ∧ q.present = some true) ∧
        ∀ j q, qf.present < j → fams.get? j = some q → q.present ≠ some true)) ∧
    ((queue_families fams).isSome ↔
      (∃ q ∈ fams, q.graphics = true) ∧ (∃ q ∈ fams, q.transfer = true) ∧
      (∃ q ∈ fams, q.present = some true)) := by
  have inv := qfRun_inv fams
  constructor
  · intro qf hqf
    unfold queue_families at hqf
    split at hqf
    case _ g c t pr hg hc ht hp =>
      cases hqf
      refine ⟨⟨(inv.gr_some g hg).2.1, (inv.gr_some g hg).2.2⟩, ?_, ?_,
        ⟨(inv.pr_some pr hp).2.1, (inv.pr_some pr hp).2.2⟩⟩
      · refine ⟨(inv.co_some c hc).2, ?_⟩
        intro hyp hceq
        obtain ⟨j, q2, hjq, hjne, hq2g⟩ := hyp
        have hscsg : (qfRun fams).compute = (qfRun fams).graphics := by
          rw [hc, hg]
          exact congrArg some (show c = g from hceq)
        have hle := inv.co_eq.mp hscsg
        obtain ⟨qg, hqg, hqgg⟩ := (inv.gr_some g hg).2.1
        have h2 : 2 ≤ countG fams := by
          rcases Nat.lt_or_ge j g with hlt | hge
          · exact countG_two fams j g hlt q2 qg hjq hq2g hqg hqgg
          · have hgj : g < j := Nat.lt_of_le_of_ne hge (fun h => hjne h.symm)
            exact countG_two fams g j hgj qg q2 hqg hqgg hjq hq2g
        omega
      · refine ⟨(inv.tr_some t ht).2, ?_⟩
        intro hyp
        obtain ⟨j, q2, hjq, hq2t, hjg, hjc⟩ := hyp
        have hdist := inv.tr_dist ⟨j, q2, hjq, hq2t,
          fun h => hjg (by rw [hg] at h; exact Option.some.inj h),
          fun h => hjc (by rw [hc] at h; exact Option.some.inj h)⟩
        constructor
        · intro h
          exact hdist.1 (by rw [ht, hg]; exact congrArg some (show t = g from h))
        · intro h
          exact hdist.2 (by rw [ht, hc]; exact congrArg some (show t = c from h))
    case _ =>
      cases hqf
  · constructor
    · intro hsome
      unfold queue_families at hsome
      split at hsome
      case _ g c t pr hg hc ht hp =>
        obtain ⟨qg, hqg, hqgg⟩ := (inv.gr_some g hg).2.1
        obtain ⟨_, qt, hqt, hqtt⟩ := inv.tr_some t ht
        obtain ⟨qp, hqp, hqps⟩ := (inv.pr_some pr hp).2.1
        exact ⟨⟨qg, List.get?_mem hqg, hqgg⟩, ⟨qt, List.get?_mem hqt, hqtt⟩,
          ⟨qp, List.get?_mem hqp, hqps⟩⟩
      case _ =>
        cases hsome
    · intro hyp
      obtain ⟨⟨qg, hqgmem, hqgg⟩, ⟨qt, hqtmem, hqtt⟩, ⟨qp, hqpmem, hqps⟩⟩ := hyp
      have hg_ne : (qfRun fams).graphics ≠ none := by
        intro h
        have hfalse := inv.gr_none.mp h qg hqgmem
        rw [hqgg] at hfalse
        cases hfalse
      have hc_ne : (qfRun fams).compute ≠ none := fun h => hg_ne (inv.co_none.mp h)
      have ht_ne : (qfRun fams).transfer ≠ none := by
        intro h
        have hfalse := inv.tr_none.mp h qt hqtmem
        rw [hqtt] at hfalse
        cases hfalse
      have hp_ne : (qfRun fams).present ≠ none := by
        intro h
        exact inv.pr_none.mp h qp hqpmem hqps
      obtain ⟨g, hg⟩ := Option.ne_none_iff_exists'.mp hg_ne
      obtain ⟨c, hc⟩ := Option.ne_none_iff_exists'.mp hc_ne
      obtain ⟨t, ht⟩ := Option.ne_none_iff_exists'.mp ht_ne
      obtain ⟨pr, hp⟩ := Option.ne_none_iff_exists'.mp hp_ne
      unfold queue_families
      simp [hg, hc, ht, hp]

/-- Family list with graphics at 1 and 2, transfer at 0 and 2, presentation
support at 1 only; resolution picks graphics 1, compute 2, transfer 0,
present 1. -/
def exC1Fams : List FamilyProps :=
  [⟨false, true, some false⟩, ⟨true, false, some true⟩, ⟨true, true, none⟩]

/-- C1 witness: the amended properties instantiated at the concrete family
list — the resolved compute and transfer families are graphics- and
transfer-capable respectively, and transfer 0 is distinct from graphics 1 and
compute 2. -/
theorem c1_queue_families_amended_witness :
    queue_families exC1Fams = some ⟨1, 2, 0, 1⟩ ∧
    (∃ q, exC1Fams.get? 2 = some q ∧ q.graphics = true) ∧
    ((0 : Nat) ≠ 1 ∧ (0 : Nat) ≠ 2) := by
  have h := (c1_queue_families_amended exC1Fams).1 ⟨1, 2, 0, 1⟩ (by decide)
  refine ⟨by decide, h.2.1.1, ?_⟩
  exact h.2.2.1.2 ⟨0, ⟨false, true, some false⟩, by decide, by decide, by decide, by decide⟩

end VkRenderer
